import Mathlib

/-!
Verification of the sales-tracker data-access layer.

The definitions below are a shallow embedding of src/services/database.ts
(the current copy of the file, the one with the PhoneNumbers / CallLogs
tables and the polymorphic entityType column on FollowUps).  The SQLite
store is modelled as lists of rows plus per-table AUTOINCREMENT counters;
each exported database function becomes a pure Lean function on that
state.  Monetary amounts (SQL REAL) are modelled as rationals; SQL TEXT
comparisons (BETWEEN, ORDER BY) use the lexicographic order on String.
-/

namespace SalesTracker

/-- Row of the Clients table. -/
structure Client where
  id : Nat
  userId : Nat
  name : String
  phone : String
  email : String
  company : String
  industry : String
deriving DecidableEq

/-- Row of the Prospects table; status is one of New, Contacted, Qualified, Won. -/
structure Prospect where
  id : Nat
  userId : Nat
  name : String
  phone : String
  email : String
  company : String
  status : String
  followUpDate : String
deriving DecidableEq

/-- Row of the Sales table. -/
structure Sale where
  id : Nat
  clientId : Nat
  date : String
  amount : ℚ
  productOrService : String
deriving DecidableEq

/-- Row of the FollowUps table; entityType is the polymorphic discriminator
(client, prospect or phoneNumber) and isCompleted is the stored 0/1 flag. -/
structure FollowUp where
  id : Nat
  entityId : Nat
  entityType : String
  date : String
  notes : String
  isCompleted : Nat
  createdAt : String
deriving DecidableEq

/-- Row of the PhoneNumbers table; isProspect is the stored 0/1 flag. -/
structure PhoneNumber where
  id : Nat
  userId : Nat
  number : String
  lastCalledDate : String
  isProspect : Nat
  prospectId : Option Nat
deriving DecidableEq

/-- Row of the CallLogs table. -/
structure CallLog where
  id : Nat
  phoneNumberId : Nat
  date : String
  feedback : String
  duration : Nat
  shortNotes : String
  nextFollowUpDate : Option String
deriving DecidableEq

/-- The SQLite database state: one list of rows per table, in rowid order,
plus the AUTOINCREMENT counter of each table. -/
structure Store where
  clients : List Client
  prospects : List Prospect
  sales : List Sale
  followUps : List FollowUp
  phoneNumbers : List PhoneNumber
  callLogs : List CallLog
  nextClientId : Nat
  nextProspectId : Nat
  nextSaleId : Nat
  nextFollowUpId : Nat
  nextPhoneNumberId : Nat
  nextCallLogId : Nat
deriving DecidableEq

/-- Stable insertion used by sortLe: x is placed before the first element y
with le x y, so elements the comparator ties keep their original order. -/
def insertLe {α : Type} (le : α → α → Bool) (x : α) : List α → List α
  | [] => [x]
  | y :: ys => if le x y then x :: y :: ys else y :: insertLe le x ys

/-- Stable sort modelling both SQL ORDER BY (rows reach the result in rowid
order when the sort keys tie) and the spec-mandated stable Array.sort. -/
def sortLe {α : Type} (le : α → α → Bool) : List α → List α
  | [] => []
  | x :: xs => insertLe le x (sortLe le xs)

/-- getClients: SELECT * FROM Clients WHERE userId = ? ORDER BY name ASC. -/
def getClients (s : Store) (userId : Nat) : List Client :=
  sortLe (fun a b => decide (a.name ≤ b.name))
    (s.clients.filter fun c => c.userId == userId)

/-- getClientById: SELECT * FROM Clients WHERE id = ? (first row or null);
note the query has no userId filter. -/
def getClientById (s : Store) (clientId : Nat) : Option Client :=
  s.clients.find? fun c => c.id == clientId

/-- getProspects: SELECT * FROM Prospects WHERE userId = ? ORDER BY followUpDate ASC. -/
def getProspects (s : Store) (userId : Nat) : List Prospect :=
  sortLe (fun a b => decide (a.followUpDate ≤ b.followUpDate))
    (s.prospects.filter fun p => p.userId == userId)

/-- The partial-update argument of updateClient: one optional value per
updatable column, mirroring Partial of Client minus id and userId. -/
structure ClientUpdates where
  name : Option String := none
  phone : Option String := none
  email : Option String := none
  company : Option String := none
  industry : Option String := none
deriving DecidableEq

/-- The updateFields list built by updateClient: one SET clause per supplied
field, in the source's field order. -/
def clientUpdateFields (u : ClientUpdates) : List (Client → Client) :=
  (match u.name with | some v => [fun c => { c with name := v }] | none => []) ++
  (match u.phone with | some v => [fun c => { c with phone := v }] | none => []) ++
  (match u.email with | some v => [fun c => { c with email := v }] | none => []) ++
  (match u.company with | some v => [fun c => { c with company := v }] | none => []) ++
  (match u.industry with | some v => [fun c => { c with industry := v }] | none => [])

/-- updateClient: builds the SET clause list; when it is empty the function
returns before issuing any statement, otherwise it updates the row whose id
matches, applying the supplied fields. -/
def updateClient (s : Store) (clientId : Nat) (updates : ClientUpdates) : Store :=
  let fields := clientUpdateFields updates
  if fields.isEmpty then s
  else
    { s with clients := s.clients.map fun c =>
        if c.id == clientId then fields.foldl (fun c f => f c) c else c }

/-- completeFollowUp: UPDATE FollowUps SET isCompleted = 1 WHERE id = ?. -/
def completeFollowUp (s : Store) (followUpId : Nat) : Store :=
  { s with followUps := s.followUps.map fun f =>
      if f.id == followUpId then { f with isCompleted := 1 } else f }

/-- The caller-supplied sale fields of convertProspectToClientAndRecordSale
(Omit of Sale without id and clientId). -/
structure SaleData where
  date : String
  amount : ℚ
  productOrService : String
deriving DecidableEq

/-- The three mutating statements of convertProspectToClientAndRecordSale,
in program order. -/
inductive ConvStep
  | clientInsert
  | saleInsert
  | statusUpdate
deriving DecidableEq

/-- convertProspectToClientAndRecordSale with a storage-fault oracle: failAt
says which statement (if any) the storage engine rejects, modelling the
fault-injection test double of the spec.  The source runs the statements
without a transaction, so a fault makes the catch block rethrow with the
earlier statements already persisted: the error carries the store exactly
as left behind at the failure. -/
def convertProspectToClientAndRecordSaleFault (failAt : ConvStep → Bool)
    (s : Store) (prospectId : Nat) (saleData : SaleData) :
    Except Store (Store × Client × Sale) :=
  match s.prospects.find? (fun p => p.id == prospectId) with
  | none => .error s
  | some prospect =>
    if failAt .clientInsert then .error s else
    let newClient : Client :=
      ⟨s.nextClientId, prospect.userId, prospect.name, prospect.phone,
        prospect.email, prospect.company, "General"⟩
    let s1 := { s with clients := s.clients ++ [newClient],
                       nextClientId := s.nextClientId + 1 }
    if failAt .saleInsert then .error s1 else
    let newSale : Sale :=
      ⟨s1.nextSaleId, newClient.id, saleData.date, saleData.amount,
        saleData.productOrService⟩
    let s2 := { s1 with sales := s1.sales ++ [newSale],
                        nextSaleId := s1.nextSaleId + 1 }
    if failAt .statusUpdate then .error s2 else
    let s3 := { s2 with prospects := s2.prospects.map fun p =>
                  if p.id == prospectId then { p with status := "Won" } else p }
    .ok (s3, newClient, newSale)

/-- convertProspectToClientAndRecordSale on a fault-free storage engine. -/
def convertProspectToClientAndRecordSale (s : Store) (prospectId : Nat)
    (saleData : SaleData) : Except Store (Store × Client × Sale) :=
  convertProspectToClientAndRecordSaleFault (fun _ => false) s prospectId saleData

/-- The caller-supplied prospect fields of convertPhoneNumberToProspect
(Omit of Prospect without id, userId and phone). -/
structure ProspectData where
  name : String
  email : String
  company : String
  status : String
  followUpDate : String
deriving DecidableEq

/-- convertPhoneNumberToProspect: read the PhoneNumber (error when absent,
store unchanged); insert a Prospect copying its number as phone; set
isProspect = 1 and prospectId on the PhoneNumber row; set isCompleted = 1 on
every FollowUp with that entityId and entityType phoneNumber. -/
def convertPhoneNumberToProspect (s : Store) (phoneNumberId : Nat)
    (prospectData : ProspectData) : Except Store (Store × Prospect) :=
  match s.phoneNumbers.find? (fun pn => pn.id == phoneNumberId) with
  | none => .error s
  | some phoneNumber =>
    let newProspect : Prospect :=
      ⟨s.nextProspectId, phoneNumber.userId, prospectData.name,
        phoneNumber.number, prospectData.email, prospectData.company,
        prospectData.status, prospectData.followUpDate⟩
    let s1 := { s with prospects := s.prospects ++ [newProspect],
                       nextProspectId := s.nextProspectId + 1 }
    let s2 := { s1 with phoneNumbers := s1.phoneNumbers.map fun (pn : PhoneNumber) =>
                  if pn.id == phoneNumberId then
                    { pn with isProspect := 1, prospectId := some newProspect.id }
                  else pn }
    let s3 := { s2 with followUps := s2.followUps.map fun (f : FollowUp) =>
                  if f.entityId == phoneNumberId && f.entityType == "phoneNumber" then
                    { f with isCompleted := 1 }
                  else f }
    .ok (s3, newProspect)

/-- The caller-supplied logData of recordNewCall (Omit of CallLog without id
and phoneNumberId); a null nextFollowUpDate is none. -/
structure CallLogData where
  date : String
  feedback : String
  duration : Nat
  shortNotes : String
  nextFollowUpDate : Option String
deriving DecidableEq

/-- Tail of recordNewCall after the PhoneNumber row is settled: insert the
CallLog, then - when logData.nextFollowUpDate is truthy (non-null and
non-empty) - insert a FollowUp addressed to the PhoneNumber.  The now
argument is the wall clock read for createdAt. -/
def recordCallFinish (now : String) (s : Store) (number : String)
    (pn : PhoneNumber) (logData : CallLogData) : Store × PhoneNumber × CallLog :=
  let newCallLog : CallLog :=
    ⟨s.nextCallLogId, pn.id, logData.date, logData.feedback, logData.duration,
      logData.shortNotes, logData.nextFollowUpDate⟩
  let s1 := { s with callLogs := s.callLogs ++ [newCallLog],
                     nextCallLogId := s.nextCallLogId + 1 }
  let s2 :=
    match logData.nextFollowUpDate with
    | some d =>
      if d ≠ "" then
        let fu : FollowUp :=
          ⟨s1.nextFollowUpId, pn.id, "phoneNumber", d,
            "Follow-up call for " ++ number, 0, now⟩
        { s1 with followUps := s1.followUps ++ [fu],
                  nextFollowUpId := s1.nextFollowUpId + 1 }
      else s1
    | none => s1
  (s2, pn, newCallLog)

/-- recordNewCall: look up the PhoneNumber by (userId, number); insert it
when absent, otherwise update its lastCalledDate to the call date; then
insert the CallLog and the optional FollowUp. -/
def recordNewCall (now : String) (s : Store) (userId : Nat) (number : String)
    (logData : CallLogData) : Store × PhoneNumber × CallLog :=
  match s.phoneNumbers.find? (fun pn => pn.userId == userId && pn.number == number) with
  | none =>
    let pn : PhoneNumber :=
      ⟨s.nextPhoneNumberId, userId, number, logData.date, 0, none⟩
    let s1 := { s with phoneNumbers := s.phoneNumbers ++ [pn],
                       nextPhoneNumberId := s.nextPhoneNumberId + 1 }
    recordCallFinish now s1 number pn logData
  | some pn0 =>
    let s1 := { s with phoneNumbers := s.phoneNumbers.map fun (pn : PhoneNumber) =>
                  if pn.id == pn0.id then { pn with lastCalledDate := logData.date }
                  else pn }
    recordCallFinish now s1 number { pn0 with lastCalledDate := logData.date } logData

/-- getCallLogs: CallLogs joined to their PhoneNumber, filtered to the user's
numbers, ordered by date descending.  PhoneNumber ids are primary keys, so
the INNER JOIN keeps exactly the logs whose number belongs to the user. -/
def getCallLogs (s : Store) (userId : Nat) : List CallLog :=
  sortLe (fun a b => decide (b.date ≤ a.date))
    (s.callLogs.filter fun cl =>
      s.phoneNumbers.any fun pn => pn.id == cl.phoneNumberId && pn.userId == userId)

/-- The WHERE clause of getFollowUps: after the three type-tagged LEFT JOINs,
a row survives exactly when its entityType joins to a row of that table
owned by the user. -/
def followUpResolvesToUser (s : Store) (userId : Nat) (f : FollowUp) : Bool :=
  (f.entityType == "client" &&
    s.clients.any fun c => c.id == f.entityId && c.userId == userId) ||
  (f.entityType == "prospect" &&
    s.prospects.any fun p => p.id == f.entityId && p.userId == userId) ||
  (f.entityType == "phoneNumber" &&
    s.phoneNumbers.any fun pn => pn.id == f.entityId && pn.userId == userId)

/-- getFollowUps: follow-ups resolving to an entity owned by the user,
ordered by date ascending. -/
def getFollowUps (s : Store) (userId : Nat) : List FollowUp :=
  sortLe (fun a b => decide (a.date ≤ b.date))
    (s.followUps.filter (followUpResolvesToUser s userId))

/-- One topProducts entry: a productOrService group with its sale count and
summed revenue. -/
structure ProductGroup where
  product : String
  count : Nat
  revenue : ℚ
deriving DecidableEq

/-- One step of the productMap fold: Map.set updates the existing key in
place (keeping its position) or appends a new key at the end. -/
def upsertProduct : List ProductGroup → Sale → List ProductGroup
  | [], sl => [⟨sl.productOrService, 1, sl.amount⟩]
  | g :: rest, sl =>
    if g.product == sl.productOrService then
      { g with count := g.count + 1, revenue := g.revenue + sl.amount } :: rest
    else g :: upsertProduct rest sl

/-- The productMap of getAnalyticsData: groups in first-encounter order. -/
def groupProducts (sales : List Sale) : List ProductGroup :=
  sales.foldl upsertProduct []

/-- The topProducts comparator: sort descending by revenue. -/
def revDesc (a b : ProductGroup) : Bool :=
  decide (b.revenue ≤ a.revenue)

/-- One salesByMonth entry. -/
structure MonthGroup where
  month : String
  revenue : ℚ
  count : Nat
deriving DecidableEq

/-- The YYYY-MM key of salesByMonth.  The source computes
toISOString().slice(0, 7) of the parsed sale date; for the ISO-8601 UTC
date strings the app stores, that is the first seven characters. -/
def monthKey (d : String) : String := d.take 7

/-- One step of the monthMap fold. -/
def upsertMonth : List MonthGroup → Sale → List MonthGroup
  | [], sl => [⟨monthKey sl.date, sl.amount, 1⟩]
  | g :: rest, sl =>
    if g.month == monthKey sl.date then
      { g with revenue := g.revenue + sl.amount, count := g.count + 1 } :: rest
    else g :: upsertMonth rest sl

/-- One step of the statusMap / feedbackMap group-count folds. -/
def upsertCount (key : String) : List (String × Nat) → List (String × Nat)
  | [] => [(key, 1)]
  | (k, n) :: rest =>
    if k == key then (k, n + 1) :: rest else (k, n) :: upsertCount key rest

/-- The result record of getAnalyticsData. -/
structure AnalyticsData where
  totalRevenue : ℚ
  totalClients : Nat
  totalProspects : Nat
  totalCalls : Nat
  totalFollowUps : Nat
  completedFollowUps : Nat
  pendingFollowUps : Nat
  conversionRate : ℚ
  averageSaleAmount : ℚ
  topProducts : List ProductGroup
  salesByMonth : List MonthGroup
  prospectsByStatus : List (String × Nat)
  callsByFeedback : List (String × Nat)
deriving DecidableEq

/-- The sales query of getAnalyticsData: the user's sales (via the Clients
join), with the BETWEEN date bound added only when startDate and endDate are
both truthy (supplied and non-empty), ordered by date descending. -/
def analyticsSales (s : Store) (userId : Nat) (startDate endDate : Option String) :
    List Sale :=
  let owned := s.sales.filter fun sl =>
    s.clients.any fun c => c.id == sl.clientId && c.userId == userId
  let bounded :=
    match startDate, endDate with
    | some a, some b =>
      if a ≠ "" && b ≠ "" then
        owned.filter fun sl => decide (a ≤ sl.date) && decide (sl.date ≤ b)
      else owned
    | _, _ => owned
  sortLe (fun x y => decide (y.date ≤ x.date)) bounded

/-- getAnalyticsData: the in-memory aggregation over the user's sales,
clients, prospects, call logs and follow-ups. -/
def getAnalyticsData (s : Store) (userId : Nat) (startDate endDate : Option String) :
    AnalyticsData :=
  let sales := analyticsSales s userId startDate endDate
  let clients := getClients s userId
  let prospects := getProspects s userId
  let callLogs := getCallLogs s userId
  let followUps := getFollowUps s userId
  let totalRevenue := sales.foldl (fun acc sl => acc + sl.amount) 0
  let averageSaleAmount :=
    if sales.length > 0 then totalRevenue / (sales.length : ℚ) else 0
  let wonProspects := (prospects.filter fun p => p.status == "Won").length
  let totalProspects := prospects.length
  let conversionRate :=
    if totalProspects > 0 then ((wonProspects : ℚ) / (totalProspects : ℚ)) * 100 else 0
  let topProducts := (sortLe revDesc (groupProducts sales)).take 5
  let salesByMonth :=
    sortLe (fun a b => decide (a.month ≤ b.month)) (sales.foldl upsertMonth [])
  let prospectsByStatus := prospects.foldl (fun acc p => upsertCount p.status acc) []
  let callsByFeedback := callLogs.foldl (fun acc l => upsertCount l.feedback acc) []
  ⟨totalRevenue, clients.length, totalProspects, callLogs.length, followUps.length,
    (followUps.filter fun f => f.isCompleted == 1).length,
    (followUps.filter fun f => f.isCompleted == 0).length,
    conversionRate, averageSaleAmount, topProducts, salesByMonth,
    prospectsByStatus, callsByFeedback⟩

/-! ## Helper lemmas -/

lemma mem_insertLe {α : Type} (le : α → α → Bool) (x a : α) (l : List α) :
    a ∈ insertLe le x l ↔ a = x ∨ a ∈ l := by
  induction l with
  | nil => simp [insertLe]
  | cons y ys ih =>
    by_cases h : le x y
    · simp [insertLe, h]
    · simp only [insertLe, h, Bool.false_eq_true, if_false, List.mem_cons, ih]
      tauto

lemma mem_sortLe {α : Type} (le : α → α → Bool) (a : α) (l : List α) :
    a ∈ sortLe le l ↔ a ∈ l := by
  induction l with
  | nil => simp [sortLe]
  | cons x xs ih => simp [sortLe, mem_insertLe, ih]

/-- The empty freshly initialized store. -/
def emptyStore : Store := ⟨[], [], [], [], [], [], 1, 1, 1, 1, 1, 1⟩

/-! ## C9: empty partial update is a silent no-op -/

/-- Claim C9: updateClient with no supplied fields leaves the whole store
unchanged and does not error - the SET clause list is empty, so the function
returns before issuing any statement. -/
theorem C9_updateClient_empty_noop (s : Store) (clientId : Nat) :
    updateClient s clientId {} = s := rfl

/-! ## C10: analytics date bound needs both endpoints -/

/-- Claim C10: getAnalyticsData applies the sale-date bound only when both
startDate and endDate are supplied; with exactly one of the two provided the
result is identical to the call with no dates at all. -/
theorem C10_analytics_date_bound_needs_both (s : Store) (u : Nat) (d : String) :
    getAnalyticsData s u (some d) none = getAnalyticsData s u none none ∧
    getAnalyticsData s u none (some d) = getAnalyticsData s u none none :=
  ⟨rfl, rfl⟩

/-! ## C8: completeFollowUp is an idempotent one-way flip -/

/-- Claim C8: calling completeFollowUp twice on the same id produces exactly
the store of a single call, and the targeted row ends with isCompleted = 1. -/
theorem C8_completeFollowUp_idempotent (s : Store) (i : Nat) :
    completeFollowUp (completeFollowUp s i) i = completeFollowUp s i ∧
    ∀ f ∈ (completeFollowUp s i).followUps, f.id = i → f.isCompleted = 1 := by
  constructor
  · have hmap :
        ((s.followUps.map fun f => if f.id == i then { f with isCompleted := 1 } else f).map
            fun f => if f.id == i then { f with isCompleted := 1 } else f) =
          s.followUps.map fun f => if f.id == i then { f with isCompleted := 1 } else f := by
      rw [List.map_map]
      apply List.map_congr_left
      intro f _
      by_cases h : f.id = i
      · simp [h]
      · simp [h]
    simp only [completeFollowUp]
    rw [hmap]
  · intro f hf hid
    simp only [completeFollowUp, List.mem_map] at hf
    obtain ⟨f0, _, rfl⟩ := hf
    by_cases h : f0.id = i
    · simp [h]
    · simp only [h, beq_iff_eq, if_neg] at hid ⊢
      exact absurd hid h

/-- A concrete follow-up and store exercising C8. -/
def c8FollowUp : FollowUp := ⟨1, 5, "phoneNumber", "2024-03-01", "call", 0, "t0"⟩

/-- Store holding the single follow-up of the C8 witness. -/
def c8Store : Store := ⟨[], [], [], [c8FollowUp], [], [], 1, 1, 1, 2, 1, 1⟩

/-- Witness for C8 at a concrete store: the double call collapses to the
single call and the row ends completed. -/
theorem C8_witness :
    completeFollowUp (completeFollowUp c8Store 1) 1 = completeFollowUp c8Store 1 ∧
    ({ c8FollowUp with isCompleted := 1 } : FollowUp).isCompleted = 1 := by
  refine ⟨(C8_completeFollowUp_idempotent c8Store 1).1, ?_⟩
  exact (C8_completeFollowUp_idempotent c8Store 1).2
    { c8FollowUp with isCompleted := 1 } (by decide) (by decide)

/-! ## C5: conversion of an absent prospect fails with the store unchanged -/

/-- Claim C5: when no prospect has the requested id, the conversion fails
(Prospect not found) before any write, for every fault pattern: the error
carries the store exactly as it was. -/
theorem C5_convert_absent_prospect_unchanged (failAt : ConvStep → Bool) (s : Store)
    (prospectId : Nat) (saleData : SaleData)
    (h : ∀ p ∈ s.prospects, p.id ≠ prospectId) :
    convertProspectToClientAndRecordSaleFault failAt s prospectId saleData =
      Except.error s := by
  have hfind : s.prospects.find? (fun p => p.id == prospectId) = none := by
    apply List.find?_eq_none.2
    intro p hp
    simp [h p hp]
  simp [convertProspectToClientAndRecordSaleFault, hfind]

/-- Sale data used by the C5 witness. -/
def c5SaleData : SaleData := ⟨"2024-02-01", 500, "Widget"⟩

/-- Witness for C5: converting prospect 1 in the empty store fails with the
empty store unchanged. -/
theorem C5_witness :
    convertProspectToClientAndRecordSaleFault (fun _ => false) emptyStore 1 c5SaleData =
      Except.error emptyStore :=
  C5_convert_absent_prospect_unchanged (fun _ => false) emptyStore 1 c5SaleData
    (by intro p hp; simp [emptyStore] at hp)

/-! ## C1: the conversion workflow is not atomic (code bug) -/

/-- Prospect of the C1 failing input. -/
def c1Prospect : Prospect := ⟨1, 7, "Alice", "0700", "alice", "Acme", "Qualified", "2024-01-01"⟩

/-- Store of the C1 failing input: one valid prospect, nothing else. -/
def c1Store : Store := ⟨[], [c1Prospect], [], [], [], [], 1, 2, 1, 1, 1, 1⟩

/-- Sale data of the C1 failing input. -/
def c1SaleData : SaleData := ⟨"2024-02-01", 500, "Widget"⟩

/-- Fault pattern of the C1 failing input: the storage engine rejects the
Sale insert, after the Client insert already persisted. -/
def c1FailAtSale : ConvStep → Bool := fun st => st == ConvStep.saleInsert

/-- The store the caller observes after the injected failure. -/
def c1PartialStore : Store :=
  ⟨[⟨1, 7, "Alice", "0700", "alice", "Acme", "General"⟩],
    [c1Prospect], [], [], [], [], 2, 2, 1, 1, 1, 1⟩

/-- Claim C1 (code bug): the source runs the four conversion steps without a
transaction, so a failure injected at the Sale insert (the step right after
the Client insert) leaves a partial state: the operation fails, yet a Client
row copying the prospect persists, no Sale exists, and the prospect is still
Qualified rather than Won - exactly the state the claim forbids. -/
theorem C1_conversion_not_atomic :
    convertProspectToClientAndRecordSaleFault c1FailAtSale c1Store 1 c1SaleData =
      Except.error c1PartialStore ∧
    c1PartialStore.clients = [⟨1, 7, "Alice", "0700", "alice", "Acme", "General"⟩] ∧
    c1PartialStore.sales = [] ∧
    c1PartialStore.prospects = [c1Prospect] ∧
    c1Prospect.status = "Qualified" :=
  ⟨rfl, rfl, rfl, rfl, rfl⟩

/-! ## C2: ownership isolation (corrected) -/

/-- Client of the C2 counterexample, owned by user 2. -/
def c2Client : Client := ⟨1, 2, "Bob", "0701", "bob", "BobCo", "Retail"⟩

/-- Store of the C2 counterexample. -/
def c2Store : Store := ⟨[c2Client], [], [], [], [], [], 2, 1, 1, 1, 1, 1⟩

/-- Counterexample to C2 as stated: getClientById has no userId filter, so
user 1 invoking it on id 1 receives the row owned by user 2. -/
theorem C2_counterexample_getClientById_cross_user :
    getClientById c2Store 1 = some c2Client ∧ c2Client.userId = 2 ∧ (1 : Nat) ≠ 2 :=
  ⟨rfl, rfl, by decide⟩

/-- Claim C2 as amended: the list queries getClients and getProspects filter
by userId, so for distinct users a and b every row they return to user a is
owned by a and never by b; the by-id lookups carry no userId filter. -/
theorem C2_amended_list_queries_filter_by_owner (s : Store) (a b : Nat) (hab : a ≠ b) :
    (∀ c ∈ getClients s a, c.userId = a ∧ c.userId ≠ b) ∧
    (∀ p ∈ getProspects s a, p.userId = a ∧ p.userId ≠ b) := by
  constructor
  · intro c hc
    unfold getClients at hc
    have hmem := (mem_sortLe _ c _).1 hc
    have hfil := List.mem_filter.1 hmem
    have hua : c.userId = a := by simpa using hfil.2
    exact ⟨hua, by rw [hua]; exact hab⟩
  · intro p hp
    unfold getProspects at hp
    have hmem := (mem_sortLe _ p _).1 hp
    have hfil := List.mem_filter.1 hmem
    have hua : p.userId = a := by simpa using hfil.2
    exact ⟨hua, by rw [hua]; exact hab⟩

/-- Client of the C2 witness, owned by user 1. -/
def c2wClient : Client := ⟨3, 1, "Ann", "0702", "ann", "AnnCo", "Retail"⟩

/-- Store of the C2 witness. -/
def c2wStore : Store := ⟨[c2wClient], [], [], [], [], [], 4, 1, 1, 1, 1, 1⟩

/-- Witness for the amended C2 at a concrete store and user pair. -/
theorem C2_amended_witness : c2wClient.userId = 1 ∧ c2wClient.userId ≠ 2 :=
  (C2_amended_list_queries_filter_by_owner c2wStore 1 2 (by decide)).1
    c2wClient (by decide)

/-! ## C6: analytics zero guards -/

/-- Claim C6: with an empty (optionally date-bounded) sales list the average
sale amount is 0 and with no prospects the conversion rate is 0 - the
divisions are guarded, not thrown; otherwise averageSaleAmount is
totalRevenue divided by the sale count and conversionRate is
wonProspects / totalProspects times 100. -/
theorem C6_analytics_zero_guard (s : Store) (u : Nat) (sd ed : Option String) :
    (analyticsSales s u sd ed = [] →
      (getAnalyticsData s u sd ed).averageSaleAmount = 0) ∧
    (getProspects s u = [] → (getAnalyticsData s u sd ed).conversionRate = 0) ∧
    (analyticsSales s u sd ed ≠ [] →
      (getAnalyticsData s u sd ed).averageSaleAmount =
        (getAnalyticsData s u sd ed).totalRevenue /
          ((analyticsSales s u sd ed).length : ℚ)) ∧
    (getProspects s u ≠ [] →
      (getAnalyticsData s u sd ed).conversionRate =
        (((getProspects s u).filter fun p => p.status == "Won").length : ℚ) /
          ((getProspects s u).length : ℚ) * 100) := by
  refine ⟨?_, ?_, ?_, ?_⟩
  · intro h
    simp [getAnalyticsData, h]
  · intro h
    simp [getAnalyticsData, h]
  · intro h
    have hl : 0 < (analyticsSales s u sd ed).length := List.length_pos.2 h
    simp [getAnalyticsData, hl]
  · intro h
    have hl : 0 < (getProspects s u).length := List.length_pos.2 h
    simp [getAnalyticsData, hl]

/-- Client of the C6 witness store. -/
def c6Client : Client := ⟨1, 4, "Cara", "0703", "cara", "CaraCo", "Retail"⟩

/-- Sale of the C6 witness store. -/
def c6Sale : Sale := ⟨1, 1, "2024-02-01", 240, "Widget"⟩

/-- Prospect of the C6 witness store. -/
def c6Prospect : Prospect := ⟨1, 4, "Pia", "0704", "pia", "PiaCo", "Won", "2024-03-01"⟩

/-- C6 witness store: one client with one sale and one Won prospect for
user 4, nothing for user 9. -/
def c6Store : Store := ⟨[c6Client], [c6Prospect], [c6Sale], [], [], [], 2, 2, 2, 1, 1, 1⟩

/-- Witness for C6: user 9 has no sales and no prospects, so both guarded
values are 0; user 4 has one sale and one Won prospect, so the average is
the revenue over one and the rate is one over one times 100. -/
theorem C6_witness :
    (getAnalyticsData c6Store 9 none none).averageSaleAmount = 0 ∧
    (getAnalyticsData c6Store 9 none none).conversionRate = 0 ∧
    (getAnalyticsData c6Store 4 none none).averageSaleAmount =
      (getAnalyticsData c6Store 4 none none).totalRevenue /
        ((analyticsSales c6Store 4 none none).length : ℚ) ∧
    (getAnalyticsData c6Store 4 none none).conversionRate =
      (((getProspects c6Store 4).filter fun p => p.status == "Won").length : ℚ) /
        ((getProspects c6Store 4).length : ℚ) * 100 := by
  refine ⟨?_, ?_, ?_, ?_⟩
  · exact (C6_analytics_zero_guard c6Store 9 none none).1 (by decide)
  · exact (C6_analytics_zero_guard c6Store 9 none none).2.1 (by decide)
  · exact (C6_analytics_zero_guard c6Store 4 none none).2.2.1 (by decide)
  · exact (C6_analytics_zero_guard c6Store 4 none none).2.2.2 (by decide)

/-! ## C4: PhoneNumber to Prospect conversion -/

/-- Claim C4: converting an absent PhoneNumber id fails with the store
unchanged; converting a present one returns a Prospect copying the
PhoneNumber's number as phone and a store where that Prospect exists, the
PhoneNumber row has isProspect = 1 with prospectId pointing at the new
Prospect, and every FollowUp addressed to that PhoneNumber (in particular
every open one) has isCompleted = 1. -/
theorem C4_convertPhoneNumberToProspect_spec (s : Store) (pnId : Nat)
    (pd : ProspectData) :
    ((∀ pn ∈ s.phoneNumbers, pn.id ≠ pnId) →
      convertPhoneNumberToProspect s pnId pd = Except.error s) ∧
    (∀ t pr, convertPhoneNumberToProspect s pnId pd = Except.ok (t, pr) →
      (∃ pn ∈ s.phoneNumbers, pn.id = pnId ∧ pr.phone = pn.number) ∧
      pr ∈ t.prospects ∧
      (∀ pn ∈ t.phoneNumbers, pn.id = pnId →
        pn.isProspect = 1 ∧ pn.prospectId = some pr.id) ∧
      (∀ f ∈ t.followUps, f.entityId = pnId → f.entityType = "phoneNumber" →
        f.isCompleted = 1)) := by
  constructor
  · intro h
    have hfind : s.phoneNumbers.find? (fun pn => pn.id == pnId) = none := by
      apply List.find?_eq_none.2
      intro pn hpn
      simp [h pn hpn]
    simp [convertPhoneNumberToProspect, hfind]
  · intro t pr hok
    unfold convertPhoneNumberToProspect at hok
    rcases hfind : s.phoneNumbers.find? (fun pn => pn.id == pnId) with _ | pn0
    · rw [hfind] at hok
      exact absurd hok (by simp)
    · rw [hfind] at hok
      have hpn0mem : pn0 ∈ s.phoneNumbers := List.mem_of_find?_eq_some hfind
      have hpn0id : pn0.id = pnId := by
        have := List.find?_some hfind
        simpa using this
      simp only [Except.ok.injEq, Prod.mk.injEq] at hok
      obtain ⟨ht, hpr⟩ := hok
      subst ht
      subst hpr
      refine ⟨⟨pn0, hpn0mem, hpn0id, rfl⟩, ?_, ?_, ?_⟩
      · simp
      · intro pn hpn hid
        simp only [List.mem_map] at hpn
        obtain ⟨pn1, _, rfl⟩ := hpn
        by_cases h1 : pn1.id = pnId
        · simp [h1]
        · simp only [h1, beq_iff_eq, if_neg] at hid ⊢
          exact absurd hid h1
      · intro f hf hent htype
        simp only [List.mem_map] at hf
        obtain ⟨f1, _, rfl⟩ := hf
        by_cases h1 : f1.entityId = pnId ∧ f1.entityType = "phoneNumber"
        · simp [h1.1, h1.2]
        · have hcond : (f1.entityId == pnId && f1.entityType == "phoneNumber") = false := by
            rcases not_and_or.1 h1 with h2 | h2 <;> simp [h2]
          simp only [hcond, Bool.false_eq_true, if_false] at hent htype
          exact absurd ⟨hent, htype⟩ h1

/-- PhoneNumber row of the C4 witness, owned by user 9. -/
def c4Phone : PhoneNumber := ⟨2, 9, "0700111222", "2024-01-05", 0, none⟩

/-- Open follow-up addressed to the C4 witness PhoneNumber. -/
def c4FollowUp : FollowUp :=
  ⟨1, 2, "phoneNumber", "2024-01-10", "Follow-up call for 0700111222", 0, "t0"⟩

/-- Store of the C4 witness. -/
def c4Store : Store := ⟨[], [], [], [c4FollowUp], [c4Phone], [], 1, 1, 1, 2, 3, 1⟩

/-- Prospect data supplied to the C4 witness conversion. -/
def c4ProspectData : ProspectData := ⟨"Lead", "lead", "LeadCo", "New", "2024-02-01"⟩

/-- The prospect created by the C4 witness conversion. -/
def c4Prospect : Prospect := ⟨1, 9, "Lead", "0700111222", "lead", "LeadCo", "New", "2024-02-01"⟩

/-- The store after the C4 witness conversion. -/
def c4After : Store :=
  ⟨[], [c4Prospect], [],
    [⟨1, 2, "phoneNumber", "2024-01-10", "Follow-up call for 0700111222", 1, "t0"⟩],
    [⟨2, 9, "0700111222", "2024-01-05", 1, some 1⟩], [], 1, 2, 1, 2, 3, 1⟩

/-- Witness for C4: the success case at a concrete store (the prospect copies
the number, the PhoneNumber row is promoted, the open follow-up is completed)
and the failure case on the empty store. -/
theorem C4_witness :
    ((∃ pn ∈ c4Store.phoneNumbers, pn.id = 2 ∧ c4Prospect.phone = pn.number) ∧
      c4Prospect ∈ c4After.prospects ∧
      (∀ pn ∈ c4After.phoneNumbers, pn.id = 2 →
        pn.isProspect = 1 ∧ pn.prospectId = some c4Prospect.id) ∧
      (∀ f ∈ c4After.followUps, f.entityId = 2 → f.entityType = "phoneNumber" →
        f.isCompleted = 1)) ∧
    convertPhoneNumberToProspect emptyStore 2 c4ProspectData = Except.error emptyStore := by
  constructor
  · exact (C4_convertPhoneNumberToProspect_spec c4Store 2 c4ProspectData).2
      c4After c4Prospect rfl
  · exact (C4_convertPhoneNumberToProspect_spec emptyStore 2 c4ProspectData).1
      (by intro pn hpn; simp [emptyStore] at hpn)

/-! ## C3: recordNewCall keeps one row per (userId, number) -/

/-- The (userId, number) uniqueness key of the PhoneNumbers table. -/
def pairPred (u : Nat) (n : String) (pn : PhoneNumber) : Bool :=
  pn.userId == u && pn.number == n

/-- The PhoneNumber rows of the store carrying a given (userId, number). -/
def pairRows (s : Store) (u : Nat) (n : String) : List PhoneNumber :=
  s.phoneNumbers.filter (pairPred u n)

lemma length_le_one_mem {α : Type} {l : List α} {x : α} (hx : x ∈ l)
    (hl : l.length ≤ 1) : l = [x] := by
  cases l with
  | nil => simp at hx
  | cons y ys =>
    cases ys with
    | nil => simp at hx; rw [hx]
    | cons z zs => simp at hl

lemma pairRows_recordCallFinish (t : String) (s : Store) (number : String)
    (pn : PhoneNumber) (d : CallLogData) (u : Nat) (n : String) :
    pairRows (recordCallFinish t s number pn d).1 u n = pairRows s u n := by
  unfold pairRows
  cases hd : d.nextFollowUpDate with
  | none => simp [recordCallFinish, hd]
  | some v =>
    by_cases hv : v = ""
    · simp [recordCallFinish, hd, hv]
    · simp [recordCallFinish, hd, hv]

lemma callLogs_recordCallFinish (t : String) (s : Store) (number : String)
    (pn : PhoneNumber) (d : CallLogData) :
    (recordCallFinish t s number pn d).1.callLogs.length = s.callLogs.length + 1 := by
  cases hd : d.nextFollowUpDate with
  | none => simp [recordCallFinish, hd]
  | some v =>
    by_cases hv : v = ""
    · simp [recordCallFinish, hd, hv]
    · simp [recordCallFinish, hd, hv]

lemma pairRows_update_map (u : Nat) (n : String) (l : List PhoneNumber)
    (g : PhoneNumber → PhoneNumber)
    (hg : ∀ pn, pairPred u n (g pn) = pairPred u n pn) :
    (l.map g).filter (pairPred u n) = (l.filter (pairPred u n)).map g := by
  induction l with
  | nil => simp
  | cons x xs ih =>
    simp only [List.map_cons, List.filter_cons, hg x]
    cases h : pairPred u n x <;> simp [h, ih]

/-- One recordNewCall leaves exactly one row for the dialed pair, carrying
the call's date, provided the pair was unique (or absent) beforehand. -/
lemma recordNewCall_pair_step (t : String) (s : Store) (u : Nat) (n : String)
    (d : CallLogData) (h : (pairRows s u n).length ≤ 1) :
    ∃ pn, pairRows (recordNewCall t s u n d).1 u n = [pn] ∧
      pn.lastCalledDate = d.date := by
  cases hfind : s.phoneNumbers.find? (fun pn => pn.userId == u && pn.number == n) with
  | none =>
    refine ⟨⟨s.nextPhoneNumberId, u, n, d.date, 0, none⟩, ?_, rfl⟩
    simp only [recordNewCall, hfind]
    rw [pairRows_recordCallFinish]
    unfold pairRows
    have h1 : s.phoneNumbers.filter (pairPred u n) = [] := by
      rw [List.filter_eq_nil_iff]
      intro pn hpn
      have := List.find?_eq_none.1 hfind pn hpn
      simpa [pairPred] using this
    show (s.phoneNumbers ++ [_]).filter (pairPred u n) = _
    rw [List.filter_append, h1]
    simp [pairPred]
  | some pn0 =>
    have hpred : pairPred u n pn0 = true := by
      have := List.find?_some hfind
      simpa [pairPred] using this
    have hmem : pn0 ∈ s.phoneNumbers := List.mem_of_find?_eq_some hfind
    have hrows : pairRows s u n = [pn0] :=
      length_le_one_mem (List.mem_filter.2 ⟨hmem, hpred⟩) h
    refine ⟨{ pn0 with lastCalledDate := d.date }, ?_, rfl⟩
    simp only [recordNewCall, hfind]
    rw [pairRows_recordCallFinish]
    unfold pairRows
    show (s.phoneNumbers.map _).filter (pairPred u n) = _
    rw [pairRows_update_map u n s.phoneNumbers _ ?hg]
    case hg =>
      intro pn
      by_cases hid : pn.id = pn0.id <;> simp [pairPred, hid]
    have : s.phoneNumbers.filter (pairPred u n) = [pn0] := hrows
    rw [this]
    simp

/-- Each recordNewCall inserts exactly one CallLog row. -/
lemma recordNewCall_callLogs (t : String) (s : Store) (u : Nat) (n : String)
    (d : CallLogData) :
    (recordNewCall t s u n d).1.callLogs.length = s.callLogs.length + 1 := by
  cases hfind : s.phoneNumbers.find? (fun pn => pn.userId == u && pn.number == n) with
  | none =>
    simp only [recordNewCall, hfind]
    rw [callLogs_recordCallFinish]
  | some pn0 =>
    simp only [recordNewCall, hfind]
    rw [callLogs_recordCallFinish]

/-- Claim C3: starting from a store where the (userId, number) pair is unique
or absent, two successive recordNewCall invocations for the same pair leave
exactly one PhoneNumber row for it, that row's lastCalledDate is the second
call's date, and exactly two CallLog rows were created. -/
theorem C3_two_calls_one_phone_row (s : Store) (u : Nat) (n : String)
    (t1 t2 : String) (d1 d2 : CallLogData)
    (h : (pairRows s u n).length ≤ 1) :
    (pairRows (recordNewCall t2 (recordNewCall t1 s u n d1).1 u n d2).1 u n).length = 1 ∧
    (∀ pn ∈ (recordNewCall t2 (recordNewCall t1 s u n d1).1 u n d2).1.phoneNumbers,
      pn.userId = u → pn.number = n → pn.lastCalledDate = d2.date) ∧
    (recordNewCall t2 (recordNewCall t1 s u n d1).1 u n d2).1.callLogs.length =
      s.callLogs.length + 2 := by
  obtain ⟨pn1, hr1, _⟩ := recordNewCall_pair_step t1 s u n d1 h
  have h1 : (pairRows (recordNewCall t1 s u n d1).1 u n).length ≤ 1 := by
    rw [hr1]
    exact Nat.le_refl 1
  obtain ⟨pn2, hr2, hd2⟩ := recordNewCall_pair_step t2 _ u n d2 h1
  refine ⟨by rw [hr2]; rfl, ?_, ?_⟩
  · intro pn hpn hu hn
    have hmemf : pn ∈ pairRows (recordNewCall t2 (recordNewCall t1 s u n d1).1 u n d2).1 u n :=
      List.mem_filter.2 ⟨hpn, by simp [pairPred, hu, hn]⟩
    rw [hr2] at hmemf
    simp only [List.mem_singleton] at hmemf
    rw [hmemf]
    exact hd2
  · rw [recordNewCall_callLogs, recordNewCall_callLogs]

/-- First call of the C3 witness. -/
def c3Log1 : CallLogData := ⟨"2024-01-01", "Successful", 60, "ok", none⟩

/-- Second call of the C3 witness. -/
def c3Log2 : CallLogData := ⟨"2024-01-02", "Busy", 0, "busy", none⟩

/-- Witness for C3: two calls to the same number from the empty store leave
one PhoneNumber row dated by the second call and two CallLog rows. -/
theorem C3_witness :
    (pairRows (recordNewCall "tb" (recordNewCall "ta" emptyStore 9 "0700" c3Log1).1
        9 "0700" c3Log2).1 9 "0700").length = 1 ∧
    (∀ pn ∈ (recordNewCall "tb" (recordNewCall "ta" emptyStore 9 "0700" c3Log1).1
        9 "0700" c3Log2).1.phoneNumbers,
      pn.userId = 9 → pn.number = "0700" → pn.lastCalledDate = c3Log2.date) ∧
    (recordNewCall "tb" (recordNewCall "ta" emptyStore 9 "0700" c3Log1).1
        9 "0700" c3Log2).1.callLogs.length = emptyStore.callLogs.length + 2 :=
  C3_two_calls_one_phone_row emptyStore 9 "0700" "ta" "tb" c3Log1 c3Log2 (by decide)

/-! ## C7: topProducts grouping, ordering and truncation -/

/-- Index of the first sale of a given product in a sales list (list length
when the product never occurs). -/
def firstOccIdx (sales : List Sale) (p : String) : Nat :=
  sales.findIdx fun sl => sl.productOrService == p

/-- Number of sales of a given product. -/
def countP (sales : List Sale) (p : String) : Nat :=
  (sales.filter fun sl => sl.productOrService == p).length

/-- Summed revenue of the sales of a given product. -/
def sumP (sales : List Sale) (p : String) : ℚ :=
  ((sales.filter fun sl => sl.productOrService == p).map fun sl => sl.amount).sum

/-- First-match lookup of a product's accumulated count and revenue. -/
def lookupGroup : List ProductGroup → String → Option (Nat × ℚ)
  | [], _ => none
  | g :: rest, p =>
    if g.product == p then some (g.count, g.revenue) else lookupGroup rest p

lemma products_upsert (gs : List ProductGroup) (sl : Sale) :
    (upsertProduct gs sl).map (fun g => g.product) =
      if gs.any (fun g => g.product == sl.productOrService)
      then gs.map fun g => g.product
      else (gs.map fun g => g.product) ++ [sl.productOrService] := by
  induction gs with
  | nil => simp [upsertProduct]
  | cons g rest ih =>
    by_cases h : g.product = sl.productOrService
    · simp [upsertProduct, h]
    · by_cases h2 : rest.any (fun g => g.product == sl.productOrService) <;>
        simp [upsertProduct, h, h2, ih]

lemma products_nodup_upsert (gs : List ProductGroup) (sl : Sale)
    (h : (gs.map fun g => g.product).Nodup) :
    ((upsertProduct gs sl).map fun g => g.product).Nodup := by
  rw [products_upsert]
  by_cases h2 : gs.any (fun g => g.product == sl.productOrService)
  · simpa [h2] using h
  · simp only [h2, Bool.false_eq_true, if_false]
    refine List.Nodup.append h (List.nodup_singleton _) ?_
    intro a ha hb
    simp only [List.mem_singleton] at hb
    subst hb
    simp only [List.mem_map] at ha
    rcases ha with ⟨g, hg, hgp⟩
    simp only [List.any_eq_true, beq_iff_eq] at h2
    exact h2 ⟨g, hg, hgp⟩

lemma products_nodup_fold (sales : List Sale) (gs : List ProductGroup)
    (h : (gs.map fun g => g.product).Nodup) :
    ((sales.foldl upsertProduct gs).map fun g => g.product).Nodup := by
  induction sales generalizing gs with
  | nil => simpa using h
  | cons sl rest ih => exact ih _ (products_nodup_upsert gs sl h)

lemma lookup_upsert_same (gs : List ProductGroup) (sl : Sale) :
    lookupGroup (upsertProduct gs sl) sl.productOrService =
      some (match lookupGroup gs sl.productOrService with
            | some (c, r) => (c + 1, r + sl.amount)
            | none => (1, sl.amount)) := by
  induction gs with
  | nil => simp [upsertProduct, lookupGroup]
  | cons g rest ih =>
    by_cases h : g.product = sl.productOrService
    · simp [upsertProduct, lookupGroup, h]
    · simp [upsertProduct, lookupGroup, h, ih]

lemma lookup_upsert_other (gs : List ProductGroup) (sl : Sale) (p : String)
    (hp : p ≠ sl.productOrService) :
    lookupGroup (upsertProduct gs sl) p = lookupGroup gs p := by
  induction gs with
  | nil => simp [upsertProduct, lookupGroup, Ne.symm hp]
  | cons g rest ih =>
    by_cases h : g.product = sl.productOrService
    · simp [upsertProduct, lookupGroup, h, Ne.symm hp]
    · by_cases h2 : g.product = p <;>
        simp [upsertProduct, lookupGroup, h, h2, hp, ih]

lemma lookup_fold (sales : List Sale) (gs : List ProductGroup) (p : String) :
    lookupGroup (sales.foldl upsertProduct gs) p =
      match lookupGroup gs p with
      | some (c, r) => some (c + countP sales p, r + sumP sales p)
      | none =>
        if countP sales p = 0 then none else some (countP sales p, sumP sales p) := by
  induction sales generalizing gs with
  | nil =>
    rcases h : lookupGroup gs p with _ | ⟨c, r⟩ <;> simp [h, countP, sumP]
  | cons sl rest ih =>
    rw [List.foldl_cons, ih (upsertProduct gs sl)]
    by_cases hp : p = sl.productOrService
    · subst hp
      have hc : countP (sl :: rest) sl.productOrService =
          countP rest sl.productOrService + 1 := by
        simp [countP, List.filter_cons]
      have hs : sumP (sl :: rest) sl.productOrService =
          sl.amount + sumP rest sl.productOrService := by
        simp [sumP, List.filter_cons]
      rw [lookup_upsert_same, hc, hs]
      rcases h : lookupGroup gs sl.productOrService with _ | ⟨c, r⟩
      · simp only [h]
        rw [if_neg (by omega)]
        simp only [Option.some.injEq, Prod.mk.injEq]
        exact ⟨by omega, trivial⟩
      · simp only [h, Option.some.injEq, Prod.mk.injEq]
        exact ⟨by omega, by ring⟩
    · have hc : countP (sl :: rest) p = countP rest p := by
        simp [countP, List.filter_cons, Ne.symm hp]
      have hs : sumP (sl :: rest) p = sumP rest p := by
        simp [sumP, List.filter_cons, Ne.symm hp]
      rw [lookup_upsert_other gs sl p hp, hc, hs]

lemma lookup_of_mem (gs : List ProductGroup) (g : ProductGroup)
    (hnd : (gs.map fun g => g.product).Nodup) (hmem : g ∈ gs) :
    lookupGroup gs g.product = some (g.count, g.revenue) := by
  induction gs with
  | nil => simp at hmem
  | cons g0 rest ih =>
    rcases List.mem_cons.1 hmem with rfl | hmem2
    · simp [lookupGroup]
    · have hnd2 := List.nodup_cons.1 hnd
      have hne : g0.product ≠ g.product := by
        intro he
        apply hnd2.1
        have hpm : g.product ∈ rest.map (fun g => g.product) :=
          List.mem_map_of_mem (fun g => g.product) hmem2
        simpa [he] using hpm
      simp only [lookupGroup, beq_iff_eq, hne, if_neg, if_false]
      exact ih hnd2.2 hmem2

/-- Every entry of the product grouping carries the exact count and summed
revenue of its product's sales. -/
lemma groupProducts_entry (sales : List Sale) (g : ProductGroup)
    (hg : g ∈ groupProducts sales) :
    g.count = countP sales g.product ∧ g.revenue = sumP sales g.product := by
  have hnd := products_nodup_fold sales [] (by simp)
  have h1 := lookup_of_mem (sales.foldl upsertProduct []) g hnd hg
  have h2 := lookup_fold sales [] g.product
  rw [h1] at h2
  simp only [lookupGroup] at h2
  by_cases h0 : countP sales g.product = 0
  · rw [if_pos h0] at h2
    exact absurd h2 (by simp)
  · rw [if_neg h0] at h2
    simp only [Option.some.injEq, Prod.mk.injEq] at h2
    exact h2

lemma findIdx_append_none {α : Type} (p : α → Bool) (l1 l2 : List α)
    (h : ∀ x ∈ l1, p x = false) :
    (l1 ++ l2).findIdx p = l1.length + l2.findIdx p := by
  induction l1 with
  | nil => simp
  | cons x xs ih =>
    have hx := h x (List.mem_cons_self x xs)
    rw [List.cons_append, List.findIdx_cons, hx]
    simp only [cond_false]
    rw [ih (fun y hy => h y (List.mem_cons_of_mem x hy))]
    simp only [List.length_cons]
    omega

lemma findIdx_append_found {α : Type} (p : α → Bool) (l1 l2 : List α)
    (h : ∃ x ∈ l1, p x = true) :
    (l1 ++ l2).findIdx p = l1.findIdx p := by
  induction l1 with
  | nil => simp at h
  | cons x xs ih =>
    cases hx : p x with
    | true =>
      rw [List.cons_append, List.findIdx_cons, List.findIdx_cons, hx]
      rfl
    | false =>
      have h2 : ∃ y ∈ xs, p y = true := by
        rcases h with ⟨y, hy, hpy⟩
        rcases List.mem_cons.1 hy with rfl | hy2
        · rw [hx] at hpy
          cases hpy
        · exact ⟨y, hy2, hpy⟩
      rw [List.cons_append, List.findIdx_cons, List.findIdx_cons, hx, ih h2]

/-- A product key of the accumulator survives an upsert, and the upserted
sale's product becomes a key. -/
lemma key_mem_upsert (gs : List ProductGroup) (sl : Sale) (q : String)
    (h : (∃ g ∈ gs, g.product = q) ∨ q = sl.productOrService) :
    ∃ g ∈ upsertProduct gs sl, g.product = q := by
  have hq : q ∈ (upsertProduct gs sl).map (fun g => g.product) := by
    rw [products_upsert]
    by_cases hk : gs.any (fun g => g.product == sl.productOrService)
    · rw [if_pos hk]
      rcases h with ⟨g, hg, hgp⟩ | rfl
      · subst hgp
        exact List.mem_map_of_mem _ hg
      · simp only [List.any_eq_true, beq_iff_eq] at hk
        rcases hk with ⟨g, hg, hgp⟩
        rw [← hgp]
        exact List.mem_map_of_mem _ hg
    · rw [if_neg hk]
      rcases h with ⟨g, hg, hgp⟩ | rfl
      · subst hgp
        exact List.mem_append_left _ (List.mem_map_of_mem _ hg)
      · exact List.mem_append_right _ (List.mem_singleton_self _)
  rcases List.mem_map.1 hq with ⟨g, hg, hgp⟩
  exact ⟨g, hg, hgp⟩

lemma pairwise_of_pairwise_map {α β : Type} (f : α → β) (R : β → β → Prop)
    (l : List α) (h : List.Pairwise R (l.map f)) :
    List.Pairwise (fun a b => R (f a) (f b)) l := by
  induction l with
  | nil => simp
  | cons x xs ih =>
    rw [List.map_cons, List.pairwise_cons] at h
    refine List.Pairwise.cons ?_ (ih h.2)
    intro b hb
    exact h.1 (f b) (List.mem_map_of_mem f hb)

/-- Processing sales left to right keeps the accumulator's groups in strict
first-occurrence order of their products, provided the accumulator's keys
are exactly the products of the already processed prefix. -/
lemma pairwise_firstOcc_fold (L : List Sale) :
    ∀ rest pre : List Sale, L = pre ++ rest →
      ∀ gs : List ProductGroup,
        (∀ g ∈ gs, ∃ sl ∈ pre, sl.productOrService = g.product) →
        (∀ sl ∈ pre, ∃ g ∈ gs, g.product = sl.productOrService) →
        List.Pairwise
          (fun a b => firstOccIdx L a.product < firstOccIdx L b.product) gs →
        List.Pairwise
          (fun a b => firstOccIdx L a.product < firstOccIdx L b.product)
          (rest.foldl upsertProduct gs) := by
  intro rest
  induction rest with
  | nil =>
    intro pre hL gs h1 h2 h3
    simpa using h3
  | cons sl rest ih =>
    intro pre hL gs h1 h2 h3
    rw [List.foldl_cons]
    apply ih (pre ++ [sl]) (by rw [hL, List.append_assoc]; rfl)
    · intro g hg
      have hgp : g.product ∈ (upsertProduct gs sl).map (fun g => g.product) :=
        List.mem_map_of_mem _ hg
      rw [products_upsert] at hgp
      by_cases hk : gs.any (fun g => g.product == sl.productOrService)
      · rw [if_pos hk] at hgp
        rcases List.mem_map.1 hgp with ⟨g1, hg1, hg1p⟩
        rcases h1 g1 hg1 with ⟨sl1, hsl1, hs1p⟩
        exact ⟨sl1, List.mem_append_left _ hsl1, by rw [hs1p, hg1p]⟩
      · rw [if_neg hk] at hgp
        rcases List.mem_append.1 hgp with hin | hin
        · rcases List.mem_map.1 hin with ⟨g1, hg1, hg1p⟩
          rcases h1 g1 hg1 with ⟨sl1, hsl1, hs1p⟩
          exact ⟨sl1, List.mem_append_left _ hsl1, by rw [hs1p, hg1p]⟩
        · simp only [List.mem_singleton] at hin
          exact ⟨sl, List.mem_append_right _ (List.mem_singleton_self sl), hin.symm⟩
    · intro sl1 hsl1
      rcases List.mem_append.1 hsl1 with hpre | hone
      · rcases h2 sl1 hpre with ⟨g1, hg1, hg1p⟩
        exact key_mem_upsert gs sl _ (Or.inl ⟨g1, hg1, hg1p⟩)
      · simp only [List.mem_singleton] at hone
        subst hone
        exact key_mem_upsert gs sl1 _ (Or.inr rfl)
    · have hmap3 : List.Pairwise
          (fun a b : String => firstOccIdx L a < firstOccIdx L b)
          (gs.map fun g => g.product) := List.pairwise_map.2 h3
      have hmap4 : List.Pairwise
          (fun a b : String => firstOccIdx L a < firstOccIdx L b)
          ((upsertProduct gs sl).map fun g => g.product) := by
        rw [products_upsert]
        by_cases hk : gs.any (fun g => g.product == sl.productOrService)
        · rw [if_pos hk]
          exact hmap3
        · rw [if_neg hk, List.pairwise_append]
          refine ⟨hmap3, List.pairwise_singleton _ _, ?_⟩
          intro a ha b hb
          simp only [List.mem_singleton] at hb
          subst hb
          rcases List.mem_map.1 ha with ⟨g1, hg1, hg1p⟩
          rcases h1 g1 hg1 with ⟨sl1, hsl1, hs1p⟩
          have hexa : ∃ x ∈ pre, (fun x => x.productOrService == a) x = true :=
            ⟨sl1, hsl1, by simp [hs1p, hg1p]⟩
          have hnone : ∀ x ∈ pre,
              (fun x => x.productOrService == sl.productOrService) x = false := by
            intro x hx
            simp only [beq_eq_false_iff_ne, ne_eq]
            intro hxe
            apply hk
            rcases h2 x hx with ⟨g2, hg2, hg2p⟩
            rw [List.any_eq_true]
            exact ⟨g2, hg2, by simp [hg2p, hxe]⟩
          unfold firstOccIdx
          rw [hL, findIdx_append_found _ pre (sl :: rest) hexa,
            findIdx_append_none _ pre (sl :: rest) hnone]
          have hlt := List.findIdx_lt_length_of_exists hexa
          omega
      exact pairwise_of_pairwise_map (fun g : ProductGroup => g.product) _ _ hmap4

/-- The groups of groupProducts appear in strict first-occurrence order of
their products. -/
lemma pairwise_firstOcc_groupProducts (sales : List Sale) :
    List.Pairwise
      (fun a b => firstOccIdx sales a.product < firstOccIdx sales b.product)
      (groupProducts sales) := by
  have h := pairwise_firstOcc_fold sales sales [] (by simp) []
    (by intro g hg; simp at hg) (by intro sl hsl; simp at hsl) (by simp)
  simpa [groupProducts] using h

/-- Stable insertion into a list sorted descending by revenue preserves both
the descending order and the tie-breaking first-occurrence order, provided
the inserted group's product occurs strictly first. -/
lemma pairwise_insertLe_rev (sales : List Sale) (x : ProductGroup)
    (l : List ProductGroup)
    (hl : List.Pairwise (fun a b => b.revenue ≤ a.revenue ∧
      (a.revenue = b.revenue →
        firstOccIdx sales a.product < firstOccIdx sales b.product)) l)
    (hx : ∀ y ∈ l, firstOccIdx sales x.product < firstOccIdx sales y.product) :
    List.Pairwise (fun a b => b.revenue ≤ a.revenue ∧
      (a.revenue = b.revenue →
        firstOccIdx sales a.product < firstOccIdx sales b.product))
      (insertLe revDesc x l) := by
  induction l with
  | nil => simp [insertLe]
  | cons y ys ih =>
    rcases List.pairwise_cons.1 hl with ⟨hy, hys⟩
    by_cases h : revDesc x y = true
    · rw [insertLe, if_pos h]
      have hyx : y.revenue ≤ x.revenue := by
        simpa [revDesc, decide_eq_true_eq] using h
      refine List.Pairwise.cons ?_ hl
      intro z hz
      rcases List.mem_cons.1 hz with rfl | hz2
      · exact ⟨hyx, fun _ => hx z (List.mem_cons_self z ys)⟩
      · have h1 := hy z hz2
        exact ⟨le_trans h1.1 hyx, fun _ => hx z (List.mem_cons_of_mem y hz2)⟩
    · rw [insertLe, if_neg h]
      have hlt : x.revenue < y.revenue := by
        have hn : ¬ y.revenue ≤ x.revenue := by
          simpa [revDesc, decide_eq_true_eq] using h
        exact lt_of_not_le hn
      refine List.Pairwise.cons ?_
        (ih hys (fun z hz => hx z (List.mem_cons_of_mem y hz)))
      intro z hz
      rcases (mem_insertLe revDesc x z ys).1 hz with rfl | hz2
      · exact ⟨le_of_lt hlt, fun he => absurd he (ne_of_gt hlt)⟩
      · exact hy z hz2

/-- Stable sort by descending revenue: the result is pairwise descending,
with ties kept in the input's (first-occurrence) order. -/
lemma pairwise_sortLe_rev (sales : List Sale) (l : List ProductGroup)
    (h : List.Pairwise (fun a b =>
      firstOccIdx sales a.product < firstOccIdx sales b.product) l) :
    List.Pairwise (fun a b => b.revenue ≤ a.revenue ∧
      (a.revenue = b.revenue →
        firstOccIdx sales a.product < firstOccIdx sales b.product))
      (sortLe revDesc l) := by
  induction l with
  | nil => simp [sortLe]
  | cons x xs ih =>
    rcases List.pairwise_cons.1 h with ⟨hx, hxs⟩
    rw [sortLe]
    exact pairwise_insertLe_rev sales x _ (ih hxs)
      (fun y hy => hx y ((mem_sortLe revDesc y xs).1 hy))

/-- Claim C7: topProducts holds at most five entries, each entry carries the
exact sale count and summed revenue of its product in the (optionally
date-bounded, date-descending) sales list, the entries are sorted descending
by revenue, and entries with equal revenue appear in the order their
products are first encountered in that sales list. -/
theorem C7_topProducts_spec (s : Store) (u : Nat) (sd ed : Option String) :
    (getAnalyticsData s u sd ed).topProducts.length ≤ 5 ∧
    List.Pairwise
      (fun a b => b.revenue ≤ a.revenue ∧
        (a.revenue = b.revenue →
          firstOccIdx (analyticsSales s u sd ed) a.product <
            firstOccIdx (analyticsSales s u sd ed) b.product))
      (getAnalyticsData s u sd ed).topProducts ∧
    ∀ g ∈ (getAnalyticsData s u sd ed).topProducts,
      g.count = countP (analyticsSales s u sd ed) g.product ∧
      g.revenue = sumP (analyticsSales s u sd ed) g.product := by
  have htp : (getAnalyticsData s u sd ed).topProducts =
      (sortLe revDesc (groupProducts (analyticsSales s u sd ed))).take 5 := rfl
  refine ⟨?_, ?_, ?_⟩
  · rw [htp]
    exact List.length_take_le 5 _
  · rw [htp]
    exact (pairwise_sortLe_rev (analyticsSales s u sd ed) _
      (pairwise_firstOcc_groupProducts (analyticsSales s u sd ed))).sublist
      (List.take_sublist 5 _)
  · intro g hg
    rw [htp] at hg
    have hg2 := (mem_sortLe revDesc g _).1 (List.mem_of_mem_take hg)
    exact groupProducts_entry _ g hg2

/-- Client of the C7 witness store. -/
def c7Client : Client := ⟨1, 4, "Cara", "0705", "cara", "CaraCo", "Retail"⟩

/-- Sale of the C7 witness store. -/
def c7Sale : Sale := ⟨1, 1, "2024-02-01", 100, "Widget"⟩

/-- Store of the C7 witness: one client with one sale. -/
def c7Store : Store := ⟨[c7Client], [], [c7Sale], [], [], [], 2, 1, 2, 1, 1, 1⟩

/-- Witness for C7 at a concrete store: one Widget sale yields a single
group with count 1 and revenue 100. -/
theorem C7_witness :
    (getAnalyticsData c7Store 4 none none).topProducts.length ≤ 5 ∧
    (⟨"Widget", 1, 100⟩ : ProductGroup).count =
      countP (analyticsSales c7Store 4 none none) "Widget" ∧
    (⟨"Widget", 1, 100⟩ : ProductGroup).revenue =
      sumP (analyticsSales c7Store 4 none none) "Widget" := by
  refine ⟨(C7_topProducts_spec c7Store 4 none none).1, ?_⟩
  exact (C7_topProducts_spec c7Store 4 none none).2.2 ⟨"Widget", 1, 100⟩ (by decide)

end SalesTracker
